import Mathlib

/-!
Shallow embedding of the BXC staking backend (src/unnamed/part_000, main
document, lines 1-1335; the constants INITIAL_BXC and
LUCKY_WINNER_SLOT_THRESHOLD referenced there are defined in the sibling
iteration src/index.js, lines 64 and 80).

Modelling conventions:
  - JavaScript numbers are modelled as rationals, timestamps as rationals
    in milliseconds (Date.getTime); `timeElapsedMs / 1000` stays a division
    by 1000 as in the source.
  - Nullable fields are Option; `eventStartTime` and `eventEndTime` are
    total because ensureGlobalStateInitialized (lines 80-163) always sets
    both before any route runs, and every cycle reset rewrites both.
  - The Mongo users collection is a list of user records; updateOne with a
    walletAddress filter is a map over the list, insertOne an append.
  - Math.random draws are an injected DrawOutcome input, so theorems
    quantify over every possible draw.
-/

/-- A stakeTransactions entry: the object pushed at line 439. -/
structure StakeTx where
  hash : String
  timestamp : ℚ
  amountUSD : ℚ
  deriving DecidableEq

/-- A users-collection record, fields as created at lines 256-271 (and
406-422). -/
structure User where
  walletAddress : String
  slotsStaked : ℕ
  stakedUSDValue : ℚ
  BXC_Balance : ℚ
  AIN_Balance : ℚ
  claimedEventRewardTime : Option ℚ
  collectedEventRewardTime : Option ℚ
  lastRevealedUSDAmount : ℚ
  lastReferralCopyBonusGiven : Option ℚ
  referralCode : String
  referralCount : ℕ
  createdAt : ℚ
  stakeTransactions : List StakeTx
  lastBXCAccrualTime : Option ℚ
  deriving DecidableEq

/-- The singleton globalState record, fields as initialized at lines
90-103.  totalSlotsUsed is an integer because the decrement at lines
555-558 is unconditional. -/
structure GlobalState where
  totalSlotsUsed : ℤ
  eventStartTime : ℚ
  eventEndTime : ℚ
  isPaused : Bool
  pauseStartTime : Option ℚ
  withdrawalsPaused : Bool
  lastResetTime : ℚ
  stakingRecipientAddress : String
  initialStakeAmountUSD : ℚ
  maxStakeSlots : ℤ
  maxAinRewardPool : ℚ
  totalAinRewarded : ℚ
  deriving DecidableEq

/-- Line 56. -/
def BXC_ACCRUAL_PER_SECOND : ℚ := 1/1000

/-- Line 57. -/
def REFERRAL_BXC : ℚ := 1050

/-- Line 58. -/
def REFERRAL_COPY_BXC_BONUS : ℚ := 50

/-- Line 60: fixed AIN/USD conversion price, 0.137. -/
def AIN_USD_PRICE : ℚ := 137/1000

/-- src/index.js line 64 (referenced at line 434 of part_000). -/
def INITIAL_BXC : ℚ := 8000

/-- src/index.js line 80 (referenced at line 626 of part_000). -/
def LUCKY_WINNER_SLOT_THRESHOLD : ℤ := 9000

/-- Default cycle length: `globalState.EVENT_DURATION_HOURS || 95` (lines
109 and 361); no code path ever writes an EVENT_DURATION_HOURS field, so
the default 95 hours always applies. -/
def EVENT_DURATION_MS : ℚ := 95 * 60 * 60 * 1000

/-- The users collection. -/
abbrev UserStore := List User

/-- usersCollection.findOne on a walletAddress filter. -/
def findUser (store : UserStore) (addr : String) : Option User :=
  store.find? (fun u => u.walletAddress == addr)

/-- usersCollection.findOne on a referralCode filter (line 450). -/
def findUserByReferralCode (store : UserStore) (code : String) : Option User :=
  store.find? (fun u => u.referralCode == code)

/-- usersCollection.insertOne. -/
def insertUser (store : UserStore) (u : User) : UserStore :=
  store ++ [u]

/-- usersCollection.updateOne on a walletAddress filter. -/
def updateUser (store : UserStore) (addr : String) (f : User → User) : UserStore :=
  store.map (fun u => if u.walletAddress == addr then f u else u)

/-- JavaScript `s.toLowerCase()` on the ASCII wallet addresses and hex
hashes this backend handles: lowercase every character.  Defined
structurally over the character list so that concrete instances evaluate. -/
def jsToLower (s : String) : String := ⟨s.data.map Char.toLower⟩

/-- JavaScript `s.slice(-6)`: the last six characters (the whole string if
shorter).  Defined over the character list so that concrete instances
evaluate. -/
def sliceLast6 (s : String) : String :=
  ⟨s.data.drop (s.data.length - 6)⟩

/-- The fresh user record inserted at lines 256-272 of /api/status and at
lines 406-423 of /api/stake; `addr` is the already-lowercased wallet
address. -/
def mkNewUser (addr : String) (now : ℚ) : User :=
  { walletAddress := addr
    slotsStaked := 0
    stakedUSDValue := 0
    BXC_Balance := 0
    AIN_Balance := 0
    claimedEventRewardTime := none
    collectedEventRewardTime := none
    lastRevealedUSDAmount := 0
    lastReferralCopyBonusGiven := none
    referralCode := sliceLast6 addr
    referralCount := 0
    createdAt := now
    stakeTransactions := []
    lastBXCAccrualTime := some now }

/-- calculateAndSaveBXC, lines 167-224: lazily accrues the BXC balance of
a user from the elapsed time since lastBXCAccrualTime, committing the new
balance and timestamp.  When paused (lines 174-181), or when the user has
no prior accrual timestamp or no stake (lines 183-190), only the
timestamp advances. -/
def calculateAndSaveBXC (g : GlobalState) (now : ℚ) (user : User) : User :=
  if g.isPaused then
    { user with lastBXCAccrualTime := some now }
  else
    match user.lastBXCAccrualTime with
    | none => { user with lastBXCAccrualTime := some now }
    | some last =>
      if user.slotsStaked = 0 then
        { user with lastBXCAccrualTime := some now }
      else
        let accrualUntilTime := if g.eventEndTime < now then g.eventEndTime else now
        let effectiveAccrualStartTime := max last g.eventStartTime
        let timeElapsedMs := max 0 (accrualUntilTime - effectiveAccrualStartTime)
        let timeElapsedSeconds := timeElapsedMs / 1000
        let accruedBXC := timeElapsedSeconds * BXC_ACCRUAL_PER_SECOND
        if 0 < accruedBXC ∧ 0 < user.slotsStaked ∧ g.eventStartTime ≤ now
            ∧ now ≤ g.eventEndTime then
          { user with BXC_Balance := user.BXC_Balance + accruedBXC
                      lastBXCAccrualTime := some now }
        else
          { user with lastBXCAccrualTime := some now }

/-- Repeated lazy accrual at a list of successive times (the poll-driven
call pattern of §4.2 of the spec: every route touching a user calls
calculateAndSaveBXC first). -/
def accrueSeq (g : GlobalState) (ts : List ℚ) (u : User) : User :=
  ts.foldl (fun acc t => calculateAndSaveBXC g t acc) u

/-- The /api/status user branch, lines 252-276: a missing user record is
created and persisted as a side effect of the read, an existing one gets
a lazy accrual pass.  The rest of the endpoint only builds the response
snapshot. -/
def statusUser (store : UserStore) (g : GlobalState) (walletAddress : String)
    (now : ℚ) : Option User × UserStore :=
  if walletAddress = "" then (none, store)
  else
    let addr := jsToLower walletAddress
    match findUser store addr with
    | none =>
      let user := mkNewUser addr now
      (some user, insertUser store user)
    | some user =>
      (some (calculateAndSaveBXC g now user),
       updateUser store addr (fun u => calculateAndSaveBXC g now u))

/-- The outcome of the Math.random draw block at lines 626-635, before
pool clamping: the USD amount and the isLuckyWinner flag it sets. -/
structure DrawOutcome where
  rewardAmountUSD : ℚ
  isLuckyWinner : Bool
  deriving DecidableEq

/-- Characterizes the outcomes the draw block at lines 626-635 can
actually produce: either a winner with an integer USD amount between 10
and 899 (large range 100-899 or regular range 10-99), or a 0-USD
non-winner. -/
def DrawOutcome.possible (d : DrawOutcome) : Prop :=
  (d.isLuckyWinner = true ∧ ∃ n : ℕ, 10 ≤ n ∧ n ≤ 899 ∧ d.rewardAmountUSD = (n : ℚ))
  ∨ (d.isLuckyWinner = false ∧ d.rewardAmountUSD = 0)

/-- The slot-threshold gate at line 626: past LUCKY_WINNER_SLOT_THRESHOLD
no randomness is consumed and the draw stays (0, false). -/
def gatedDraw (g : GlobalState) (d : DrawOutcome) : DrawOutcome :=
  if g.totalSlotsUsed ≤ LUCKY_WINNER_SLOT_THRESHOLD then d else ⟨0, false⟩

/-- The values committed by a reveal after the pool clamp. -/
structure DrawCommit where
  rewardAmountUSD : ℚ
  calculatedAinAmount : ℚ
  isLuckyWinner : Bool
  deriving DecidableEq

/-- Lines 637-648: convert the USD draw to AIN, then clamp to the
remaining pool when `maxAinRewardPool > 0` and the payout would exceed
it; a clamp down to 0 also clears isLuckyWinner. -/
def clampDraw (maxAinRewardPool totalAinRewarded rewardAmountUSD : ℚ)
    (isLuckyWinner : Bool) : DrawCommit :=
  let calculatedAinAmount :=
    if isLuckyWinner then rewardAmountUSD / AIN_USD_PRICE else 0
  if 0 < maxAinRewardPool ∧ maxAinRewardPool < totalAinRewarded + calculatedAinAmount then
    let adjusted := max 0 (maxAinRewardPool - totalAinRewarded)
    { rewardAmountUSD := adjusted * AIN_USD_PRICE
      calculatedAinAmount := adjusted
      isLuckyWinner := if adjusted = 0 then false else isLuckyWinner }
  else
    { rewardAmountUSD := rewardAmountUSD
      calculatedAinAmount := calculatedAinAmount
      isLuckyWinner := isLuckyWinner }

/-- Line 598 guard (also line 719): claimedEventRewardTime is set and at
or after the current eventStartTime. -/
def revealedThisCycle (u : User) (eventStartTime : ℚ) : Bool :=
  match u.claimedEventRewardTime with
  | some t => decide (eventStartTime ≤ t)
  | none => false

/-- Line 723 guard: collectedEventRewardTime is set and at or after the
current eventStartTime. -/
def collectedThisCycle (u : User) (eventStartTime : ℚ) : Bool :=
  match u.collectedEventRewardTime with
  | some t => decide (eventStartTime ≤ t)
  | none => false

/-- Result of /api/reveal-reward as seen by the caller (the response
isLuckyWinner at lines 607 and 673 is `amount > 0`). -/
inductive RevealResult
  | missingInput
  | mustStakeFirst
  | paused
  | notEnded
  | alreadyRevealed (ainAmount : ℚ) (isLuckyWinner : Bool)
  | revealed (ainAmount : ℚ) (isLuckyWinner : Bool)
  deriving DecidableEq

/-- The /api/reveal-reward route, lines 569-687, with the Math.random
outcome injected as `draw`.  A repeat reveal in the same cycle returns the
stored result idempotently (lines 598-616); a fresh reveal gates the draw
on the slot threshold, clamps it against the pool, adds the clamped AIN
to totalAinRewarded when positive, and stamps the user record. -/
def revealReward (store : UserStore) (g : GlobalState) (now : ℚ)
    (walletAddress : String) (draw : DrawOutcome) :
    RevealResult × UserStore × GlobalState :=
  if walletAddress = "" then (.missingInput, store, g)
  else
    let addr := jsToLower walletAddress
    match findUser store addr with
    | none => (.mustStakeFirst, store, g)
    | some user =>
      if user.slotsStaked = 0 then (.mustStakeFirst, store, g)
      else if g.isPaused then (.paused, store, g)
      else if now < g.eventEndTime then (.notEnded, store, g)
      else if revealedThisCycle user g.eventStartTime then
        (.alreadyRevealed (user.lastRevealedUSDAmount / AIN_USD_PRICE)
          (decide (0 < user.lastRevealedUSDAmount)), store, g)
      else
        let gated := gatedDraw g draw
        let commit := clampDraw g.maxAinRewardPool g.totalAinRewarded
          gated.rewardAmountUSD gated.isLuckyWinner
        let g1 :=
          if 0 < commit.calculatedAinAmount then
            { g with totalAinRewarded := g.totalAinRewarded + commit.calculatedAinAmount }
          else g
        let store1 := updateUser store addr (fun u =>
          { u with claimedEventRewardTime := some now
                   lastRevealedUSDAmount := commit.rewardAmountUSD })
        (.revealed commit.calculatedAinAmount (decide (0 < commit.calculatedAinAmount)),
         store1, g1)

/-- A sequence of reveal-reward calls within one cycle: each step names a
wallet address, an injected draw outcome and a timestamp, threading the
users collection and the global record. -/
def revealSeq (steps : List (String × DrawOutcome × ℚ))
    (store : UserStore) (g : GlobalState) : UserStore × GlobalState :=
  steps.foldl
    (fun acc step =>
      let r := revealReward acc.1 acc.2 step.2.2 step.1 step.2.1
      (r.2.1, r.2.2))
    (store, g)

/-- Result of /api/collect-reward. -/
inductive CollectResult
  | mustStakeFirst
  | paused
  | notEnded
  | mustRevealFirst
  | alreadyCollected
  | nothingToCollect
  | collected (ainAmount : ℚ)
  deriving DecidableEq

/-- The /api/collect-reward route, lines 690-760, for a found user record
(the wallet-address validation and lookup are the request-gateway part;
an absent record takes the same mustStakeFirst branch as slotsStaked 0).
On success the AIN conversion of lastRevealedUSDAmount is credited and
collectedEventRewardTime stamped; the global record is never written. -/
def collectReward (g : GlobalState) (user : User) (now : ℚ) :
    CollectResult × User × GlobalState :=
  if user.slotsStaked = 0 then (.mustStakeFirst, user, g)
  else if g.isPaused then (.paused, user, g)
  else if now < g.eventEndTime then (.notEnded, user, g)
  else if revealedThisCycle user g.eventStartTime = false then
    (.mustRevealFirst, user, g)
  else if collectedThisCycle user g.eventStartTime then
    (.alreadyCollected, user, g)
  else
    let rewardToCollectUSD := user.lastRevealedUSDAmount
    let ainAmountToCollect :=
      if 0 < rewardToCollectUSD then rewardToCollectUSD / AIN_USD_PRICE else 0
    if ainAmountToCollect = 0 then (.nothingToCollect, user, g)
    else
      (.collected ainAmountToCollect,
       { user with AIN_Balance := user.AIN_Balance + ainAmountToCollect
                   collectedEventRewardTime := some now },
       g)

/-- Line 355 and line 429: `globalState.maxStakeSlots || 30000` (a falsy 0
falls back to the default). -/
def currentMaxSlots (g : GlobalState) : ℤ :=
  if g.maxStakeSlots = 0 then 30000 else g.maxStakeSlots

/-- Line 429: `globalState.initialStakeAmountUSD || 8`. -/
def currentInitialStakeAmount (g : GlobalState) : ℚ :=
  if g.initialStakeAmountUSD = 0 then 8 else g.initialStakeAmountUSD

/-- Line 358 condition: the cycle is filled or expired, so /api/stake
starts a new cycle before going on. -/
def stakeNeedsReset (g : GlobalState) (now : ℚ) : Bool :=
  decide (currentMaxSlots g ≤ g.totalSlotsUsed) || decide (g.eventEndTime < now)

/-- The globalState rewrite of the cycle reset at lines 363-375: note that
withdrawalsPaused is set to false here, unlike the reset at lines 111-129
(where line 119 leaves it alone) and the one at lines 1017-1030 (line
1026). -/
def resetGlobalOnStake (g : GlobalState) (now : ℚ) : GlobalState :=
  { g with totalSlotsUsed := 0
           eventStartTime := now
           eventEndTime := now + EVENT_DURATION_MS
           isPaused := false
           pauseStartTime := none
           withdrawalsPaused := false
           lastResetTime := now
           totalAinRewarded := 0 }

/-- The per-user sweep of the cycle reset, lines 378-385. -/
def sweepUserRewardFlags (u : User) : User :=
  { u with claimedEventRewardTime := none
           collectedEventRewardTime := none
           lastRevealedUSDAmount := 0 }

/-- updateMany of the sweep over the whole users collection. -/
def sweepUsers (store : UserStore) : UserStore :=
  store.map sweepUserRewardFlags

/-- Lines 395-396: the user has a stake transaction timestamped within the
current cycle. -/
def hasStakedInCycle (user0 : Option User) (eventStartTime : ℚ) : Bool :=
  match user0 with
  | some u => u.stakeTransactions.any (fun tx => decide (eventStartTime ≤ tx.timestamp))
  | none => false

/-- Line 402: the transaction hash was already recorded for this user. -/
def hasRecordedHash (user0 : Option User) (h : String) : Bool :=
  match user0 with
  | some u => u.stakeTransactions.any (fun tx => tx.hash == h)
  | none => false

/-- The referrer-credit branch of /api/stake, lines 449-460: runs only on
the success path, flushes the accrual of the referrer and credits the
referral bonus. -/
def applyReferral (store : UserStore) (g : GlobalState) (now : ℚ)
    (userWalletAddress : String) : Option String → UserStore
  | none => store
  | some r =>
    if r = "" then store
    else if jsToLower r = jsToLower (sliceLast6 userWalletAddress) then store
    else
      match findUserByReferralCode store (jsToLower r) with
      | none => store
      | some referrer =>
        let store1 := updateUser store referrer.walletAddress
          (fun u => calculateAndSaveBXC g now u)
        updateUser store1 referrer.walletAddress
          (fun u => { u with BXC_Balance := u.BXC_Balance + REFERRAL_BXC
                             referralCount := u.referralCount + 1 })

/-- Result of /api/stake. -/
inductive StakeResult
  | missingInput
  | paused
  | slotsFull
  | alreadyStakedThisCycle
  | duplicateHash
  | success
  deriving DecidableEq

/-- The /api/stake route, lines 329-502.  The user record is read once
before the possible cycle reset and that snapshot is what the replay
guards inspect, exactly as in the source (the sweep touches none of the
fields those guards read). -/
def stake (store : UserStore) (g : GlobalState) (now : ℚ)
    (walletAddress transactionHash : String) (referrerRef : Option String) :
    StakeResult × UserStore × GlobalState :=
  if walletAddress = "" ∨ transactionHash = "" then (.missingInput, store, g)
  else
    let userWalletAddress := jsToLower walletAddress
    let user0 := findUser store userWalletAddress
    if g.isPaused then (.paused, store, g)
    else
      let g1 := if stakeNeedsReset g now then resetGlobalOnStake g now else g
      let store1 := if stakeNeedsReset g now then sweepUsers store else store
      if currentMaxSlots g ≤ g1.totalSlotsUsed then (.slotsFull, store1, g1)
      else if hasStakedInCycle user0 g1.eventStartTime then
        (.alreadyStakedThisCycle, store1, g1)
      else if hasRecordedHash user0 transactionHash then
        (.duplicateHash, store1, g1)
      else
        let store2 :=
          match user0 with
          | none => insertUser store1 (mkNewUser userWalletAddress now)
          | some _ => updateUser store1 userWalletAddress
              (fun u => calculateAndSaveBXC g1 now u)
        let amt := currentInitialStakeAmount g1
        let store3 := updateUser store2 userWalletAddress (fun u =>
          { u with slotsStaked := u.slotsStaked + 1
                   BXC_Balance := u.BXC_Balance + INITIAL_BXC
                   stakedUSDValue := amt
                   lastBXCAccrualTime := some now
                   stakeTransactions := u.stakeTransactions
                     ++ [{ hash := transactionHash, timestamp := now, amountUSD := amt }] })
        let g2 := { g1 with totalSlotsUsed := g1.totalSlotsUsed + 1 }
        let store4 := applyReferral store3 g2 now userWalletAddress referrerRef
        (.success, store4, g2)

/-- Result of /api/withdraw-stake. -/
inductive WithdrawStakeResult
  | missingInput
  | lookupError
  | noStake
  | paused
  | withdrawalsPausedRej
  | eventStarted
  | success
  deriving DecidableEq

/-- The /api/withdraw-stake route, lines 505-566.  calculateAndSaveBXC is
called (and committed) before any guard, so even rejected calls advance
the accrual timestamp; on an absent user record that call throws a
TypeError in the source (caught as a 500), modelled as lookupError.  On
success the slot counter is decremented unconditionally (lines 555-558),
with no lower bound. -/
def withdrawStake (store : UserStore) (g : GlobalState) (now : ℚ)
    (walletAddress : String) : WithdrawStakeResult × UserStore × GlobalState :=
  if walletAddress = "" then (.missingInput, store, g)
  else
    let addr := jsToLower walletAddress
    match findUser store addr with
    | none => (.lookupError, store, g)
    | some user0 =>
      let user := calculateAndSaveBXC g now user0
      let store1 := updateUser store addr (fun u => calculateAndSaveBXC g now u)
      if user.stakedUSDValue < currentInitialStakeAmount g ∨ user.slotsStaked = 0 then
        (.noStake, store1, g)
      else if g.isPaused then (.paused, store1, g)
      else if g.withdrawalsPaused then (.withdrawalsPausedRej, store1, g)
      else if g.eventStartTime < now then (.eventStarted, store1, g)
      else
        let store2 := updateUser store1 addr (fun u =>
          { u with slotsStaked := 0
                   stakedUSDValue := 0
                   stakeTransactions := []
                   BXC_Balance := 0
                   lastBXCAccrualTime := some now
                   claimedEventRewardTime := none
                   collectedEventRewardTime := none
                   lastRevealedUSDAmount := 0
                   AIN_Balance := 0 })
        (.success, store2, { g with totalSlotsUsed := g.totalSlotsUsed - 1 })

/-- The response payload of /api/admin/toggle-event-pause. -/
structure ToggleResponse where
  message : String
  isPaused : Bool
  eventEndTime : ℚ
  deriving DecidableEq

/-- The /api/admin/toggle-event-pause route, lines 940-996 (after the
admin gate): pausing records pauseStartTime; resuming shifts eventEndTime
forward by the elapsed pause duration and clears pauseStartTime, or, with
no pauseStartTime recorded, leaves eventEndTime unchanged and appends a
warning to the message. -/
def toggleEventPause (g : GlobalState) (now : ℚ) : ToggleResponse × GlobalState :=
  if g.isPaused then
    match g.pauseStartTime with
    | some p =>
      let newEventEndTime := g.eventEndTime + (now - p)
      ({ message := "Event resumed successfully."
         isPaused := false
         eventEndTime := newEventEndTime },
       { g with isPaused := false, pauseStartTime := none,
                eventEndTime := newEventEndTime })
    | none =>
      ({ message := "Event resumed successfully. (Warning: No previous pause time to adjust end time.)"
         isPaused := false
         eventEndTime := g.eventEndTime },
       { g with isPaused := false, pauseStartTime := none })
  else
    ({ message := "Event paused successfully."
       isPaused := true
       eventEndTime := g.eventEndTime },
     { g with isPaused := true, pauseStartTime := some now })

/-! Concrete states used to evaluate the operations at specific inputs.
Timestamps are small millisecond values; a cycle runs from time 0. -/

/-- A running, unpaused cycle from 0 to 100000 ms with one slot used. -/
def gBase : GlobalState :=
  { totalSlotsUsed := 1
    eventStartTime := 0
    eventEndTime := 100000
    isPaused := false
    pauseStartTime := none
    withdrawalsPaused := false
    lastResetTime := 0
    stakingRecipientAddress := "0x9ffdabc1b4e1d0a2b64045c32ebf3231f8541578"
    initialStakeAmountUSD := 8
    maxStakeSlots := 30000
    maxAinRewardPool := 100000
    totalAinRewarded := 0 }

/-- A staked user whose last accrual pass was at 10000 ms. -/
def uStaked : User :=
  { mkNewUser "0xa2" 0 with slotsStaked := 1, lastBXCAccrualTime := some 10000 }

/-- gBase with a long cycle, for the pause-shift instance. -/
def gLong : GlobalState := { gBase with eventEndTime := 1000000 }

/-- gLong while paused. -/
def gLongPaused : GlobalState := { gLong with isPaused := true }

/-- An ended cycle (0 to 100 ms) whose configured reward pool cap is 0. -/
def gPoolZero : GlobalState :=
  { gBase with eventEndTime := 100, maxAinRewardPool := 0 }

/-- An ended cycle with pool cap 100 AIN, 95 AIN already rewarded. -/
def gPoolAlmostFull : GlobalState :=
  { gBase with eventEndTime := 100, maxAinRewardPool := 100, totalAinRewarded := 95 }

/-- A staked user who has not revealed, address 0xc1. -/
def uRevealer : User := { mkNewUser "0xc1" 0 with slotsStaked := 1 }

/-- A winning draw of 10 USD. -/
def drawTen : DrawOutcome := { rewardAmountUSD := 10, isLuckyWinner := true }

/-- A user who staked at 5 ms in the cycle of gStakeCycle with hash h1. -/
def uStakedWithHash : User :=
  { mkNewUser "0xa4" 0 with
      slotsStaked := 1
      stakedUSDValue := 8
      stakeTransactions := [{ hash := "h1", timestamp := 5, amountUSD := 8 }]
      lastBXCAccrualTime := some 5 }

/-- A short cycle (0 to 100 ms) for the stake-replay instances. -/
def gStakeCycle : GlobalState := { gBase with eventEndTime := 100 }

/-- A full cycle (all 30000 slots used) with withdrawals paused by admin. -/
def gFullWithdrawalsPaused : GlobalState :=
  { gStakeCycle with withdrawalsPaused := true, totalSlotsUsed := 30000 }

/-- A user carrying a stake transaction from a previous cycle: the current
cycle of gFreshCycle started at 1000 ms, after this stake at 5 ms. -/
def uStaleStaker : User :=
  { mkNewUser "0xa8" 0 with
      slotsStaked := 1
      stakedUSDValue := 8
      stakeTransactions := [{ hash := "h8", timestamp := 5, amountUSD := 8 }]
      lastBXCAccrualTime := some 5 }

/-- A cycle that was just reset at 1000 ms with no slots used yet. -/
def gFreshCycle : GlobalState :=
  { gBase with eventStartTime := 1000, eventEndTime := 343001000,
               totalSlotsUsed := 0, lastResetTime := 1000 }

/-- A staked user with no reveal yet, address 0xa5. -/
def uNoReveal : User := { mkNewUser "0xa5" 0 with slotsStaked := 1 }

/-- uNoReveal after a reveal (at 100 ms) that stored 0 USD. -/
def uRevealedZero : User :=
  { uNoReveal with claimedEventRewardTime := some 100 }

/-- uNoReveal after a reveal (at 100 ms) that stored 137 USD. -/
def uRevealedPositive : User :=
  { uNoReveal with claimedEventRewardTime := some 100, lastRevealedUSDAmount := 137 }

/-- A user eligible to collect 137 USD, with nonzero balances to check the
frame. -/
def uCollector : User :=
  { mkNewUser "0xc0" 0 with
      slotsStaked := 1
      stakedUSDValue := 8
      BXC_Balance := 42
      AIN_Balance := 7
      claimedEventRewardTime := some 100
      lastRevealedUSDAmount := 137
      stakeTransactions := [{ hash := "hc", timestamp := 5, amountUSD := 8 }]
      lastBXCAccrualTime := some 5 }

/-! Lemmas about the accrual engine. -/

/-- While the event is paused, calculateAndSaveBXC only advances the
accrual timestamp (lines 174-181). -/
lemma calc_paused (g : GlobalState) (now : ℚ) (u : User) (hp : g.isPaused = true) :
    calculateAndSaveBXC g now u = { u with lastBXCAccrualTime := some now } := by
  simp [calculateAndSaveBXC, hp]

/-- One accrual pass strictly inside the event window, starting from an
accrual timestamp that is itself inside the window: the balance grows by
the rate times the elapsed interval and the timestamp advances. -/
lemma calc_step (g : GlobalState) (u : User) (t now : ℚ)
    (hp : g.isPaused = false) (hs : u.slotsStaked ≠ 0)
    (hl : u.lastBXCAccrualTime = some t)
    (hst : g.eventStartTime ≤ t) (htn : t ≤ now) (hne : now ≤ g.eventEndTime) :
    (calculateAndSaveBXC g now u).BXC_Balance
        = u.BXC_Balance + (now - t) / 1000 * BXC_ACCRUAL_PER_SECOND
    ∧ (calculateAndSaveBXC g now u).lastBXCAccrualTime = some now
    ∧ (calculateAndSaveBXC g now u).slotsStaked = u.slotsStaked := by
  have hnotlt : ¬ g.eventEndTime < now := not_lt.mpr hne
  have hmax : max t g.eventStartTime = t := max_eq_left hst
  have hnn : (0 : ℚ) ≤ now - t := by linarith
  simp only [calculateAndSaveBXC, hp, Bool.false_eq_true, if_false, hl]
  rw [if_neg hs, if_neg hnotlt, hmax, max_eq_right hnn]
  rcases lt_or_eq_of_le htn with hlt | heq
  · rw [if_pos]
    · exact ⟨rfl, rfl, rfl⟩
    · refine ⟨?_, Nat.pos_of_ne_zero hs, le_trans hst htn, hne⟩
      have h1 : (0 : ℚ) < now - t := by linarith
      have : (0 : ℚ) < (now - t) / 1000 := by positivity
      have hr : (0 : ℚ) < BXC_ACCRUAL_PER_SECOND := by norm_num [BXC_ACCRUAL_PER_SECOND]
      positivity
  · subst heq
    rw [if_neg]
    · constructor
      · simp
      · exact ⟨rfl, rfl⟩
    · intro hcon
      have := hcon.1
      simp at this

/-- Telescoping accrual: folding calculateAndSaveBXC over a nondecreasing
list of times inside the event window credits exactly the interval from
the initial accrual timestamp to the final time. -/
lemma accrueSeq_telescope (g : GlobalState) (now2 : ℚ)
    (hp : g.isPaused = false) (h2 : now2 ≤ g.eventEndTime) :
    ∀ (ts : List ℚ) (u : User) (t0 : ℚ), u.slotsStaked ≠ 0 →
      u.lastBXCAccrualTime = some t0 → g.eventStartTime ≤ t0 →
      List.Pairwise (· ≤ ·) (t0 :: (ts ++ [now2])) →
      (accrueSeq g (ts ++ [now2]) u).BXC_Balance
        = u.BXC_Balance + (now2 - t0) / 1000 * BXC_ACCRUAL_PER_SECOND := by
  intro ts
  induction ts with
  | nil =>
    intro u t0 hs hl h0 hch
    have ht : t0 ≤ now2 := by
      rcases List.pairwise_cons.mp hch with ⟨hrel, -⟩
      exact hrel now2 (by simp)
    have step := calc_step g u t0 now2 hp hs hl h0 ht h2
    simpa [accrueSeq] using step.1
  | cons t ts ih =>
    intro u t0 hs hl h0 hch
    rcases List.pairwise_cons.mp hch with ⟨hrel, htail⟩
    have h01 : t0 ≤ t := hrel t (by simp)
    have htn2 : t ≤ now2 := by
      rcases List.pairwise_cons.mp htail with ⟨hrel2, -⟩
      exact hrel2 now2 (by simp)
    have step := calc_step g u t0 t hp hs hl h0 h01 (le_trans htn2 h2)
    have hs2 : (calculateAndSaveBXC g t u).slotsStaked ≠ 0 := by
      rw [step.2.2]; exact hs
    have ih2 := ih (calculateAndSaveBXC g t u) t hs2 step.2.1
      (le_trans h0 h01) htail
    have hfold : accrueSeq g ((t :: ts) ++ [now2]) u
        = accrueSeq g (ts ++ [now2]) (calculateAndSaveBXC g t u) := rfl
    rw [hfold, ih2, step.1]
    ring

/-- C2 counterexample: in the state gBase/uStaked (staked user, last
accrual at 10000 ms, event ends at 100000 ms), a call at 200000 ms adds
no accrual at all, instead of accruing up to eventEndTime as the claim
states. -/
theorem accrualCeiling_counterexample :
    (calculateAndSaveBXC gBase 200000 uStaked).BXC_Balance = uStaked.BXC_Balance
    ∧ (calculateAndSaveBXC gBase 200000 uStaked).BXC_Balance
        ≠ uStaked.BXC_Balance
          + (gBase.eventEndTime - 10000) / 1000 * BXC_ACCRUAL_PER_SECOND := by
  constructor
  · norm_num [calculateAndSaveBXC, gBase, uStaked, mkNewUser,
      BXC_ACCRUAL_PER_SECOND, max_def]
  · norm_num [calculateAndSaveBXC, gBase, uStaked, mkNewUser,
      BXC_ACCRUAL_PER_SECOND, max_def]

/-- C2 (amended): accrual never credits any portion of elapsed time after
eventEndTime; for a staked, unpaused user with a prior accrual timestamp,
a call with now at most eventEndTime credits the window from
max(lastAccrualTime, eventStartTime) to now, while a call with now past
eventEndTime credits nothing at all (not even the pending window up to
eventEndTime, which is forfeited) and only advances the accrual
timestamp to now. -/
theorem accrualCeiling_amended (g : GlobalState) (u : User) (last now : ℚ)
    (hp : g.isPaused = false) (hl : u.lastBXCAccrualTime = some last)
    (hs : u.slotsStaked ≠ 0) :
    (g.eventEndTime < now →
      (calculateAndSaveBXC g now u).BXC_Balance = u.BXC_Balance
      ∧ (calculateAndSaveBXC g now u).lastBXCAccrualTime = some now)
    ∧ (now ≤ g.eventEndTime →
      (calculateAndSaveBXC g now u).BXC_Balance
        = u.BXC_Balance
          + max 0 (now - max last g.eventStartTime) / 1000 * BXC_ACCRUAL_PER_SECOND
      ∧ (calculateAndSaveBXC g now u).lastBXCAccrualTime = some now) := by
  constructor
  · intro hgt
    simp only [calculateAndSaveBXC, hp, Bool.false_eq_true, if_false, hl]
    rw [if_neg hs, if_pos hgt, if_neg]
    · exact ⟨rfl, rfl⟩
    · intro hcon
      exact absurd hcon.2.2.2 (not_le.mpr hgt)
  · intro hle
    simp only [calculateAndSaveBXC, hp, Bool.false_eq_true, if_false, hl]
    rw [if_neg hs, if_neg (not_lt.mpr hle)]
    by_cases hwin : max last g.eventStartTime < now
    · have hsn : g.eventStartTime ≤ now :=
        le_trans (le_max_right last g.eventStartTime) (le_of_lt hwin)
      have h1 : (0 : ℚ) < now - max last g.eventStartTime := by linarith
      have hpos : (0 : ℚ)
          < max 0 (now - max last g.eventStartTime) / 1000 * BXC_ACCRUAL_PER_SECOND := by
        rw [max_eq_right (le_of_lt h1)]
        exact mul_pos (div_pos h1 (by norm_num))
          (by norm_num [BXC_ACCRUAL_PER_SECOND])
      rw [if_pos ⟨hpos, Nat.pos_of_ne_zero hs, hsn, hle⟩]
      exact ⟨rfl, rfl⟩
    · push_neg at hwin
      have hz : max 0 (now - max last g.eventStartTime) = 0 :=
        max_eq_left (by linarith)
      rw [if_neg]
      · refine ⟨?_, rfl⟩
        rw [hz]
        norm_num
      · intro hcon
        apply absurd hcon.1
        rw [hz]
        norm_num

/-- C2 amended witness: in gBase/uStaked a call at 50000 ms (inside the
window) credits exactly 40 seconds of accrual, 0.04 BXC. -/
theorem accrualCeiling_amended_witness :
    ((50000 : ℚ) ≤ gBase.eventEndTime)
    ∧ (calculateAndSaveBXC gBase 50000 uStaked).BXC_Balance
        = uStaked.BXC_Balance + 1/25 := by
  have h := (accrualCeiling_amended gBase uStaked 10000 50000 rfl rfl
    (by norm_num [uStaked, mkNewUser])).2 (by norm_num [gBase])
  refine ⟨by norm_num [gBase], ?_⟩
  rw [h.1]
  norm_num [gBase, uStaked, mkNewUser, BXC_ACCRUAL_PER_SECOND, max_def]

/-- C3: between an accrual pass at now1 and one at now2, both inside the
active event window of an unpaused cycle, a staked user gains exactly the
fixed rate times (now2 - now1), no matter how many additional accrual
passes happen in between at nondecreasing intermediate times up to now2:
no interval is ever credited twice. -/
theorem accrualAdditivity (g : GlobalState) (u1 : User) (now1 now2 : ℚ)
    (ts : List ℚ)
    (hp : g.isPaused = false) (hs : u1.slotsStaked ≠ 0)
    (hl : u1.lastBXCAccrualTime = some now1)
    (h0 : g.eventStartTime ≤ now1) (h12 : now1 < now2) (h2 : now2 ≤ g.eventEndTime)
    (hchain : List.Pairwise (· ≤ ·) (now1 :: (ts ++ [now2]))) :
    (accrueSeq g (ts ++ [now2]) u1).BXC_Balance
      = u1.BXC_Balance + (now2 - now1) / 1000 * BXC_ACCRUAL_PER_SECOND :=
  accrueSeq_telescope g now2 hp h2 ts u1 now1 hs hl h0 hchain

/-- C3 witness: with last accrual at 1000 ms, intermediate passes at 2000
and 3000 ms and a final pass at 5000 ms, the balance grows by exactly 4
seconds of accrual, 0.004 BXC. -/
theorem accrualAdditivity_witness :
    (accrueSeq gBase [2000, 3000, 5000]
        { uStaked with lastBXCAccrualTime := some 1000 }).BXC_Balance
      = uStaked.BXC_Balance + 1/250 := by
  have h := accrualAdditivity gBase
    { uStaked with lastBXCAccrualTime := some 1000 } 1000 5000 [2000, 3000]
    rfl (by norm_num [uStaked, mkNewUser]) rfl (by norm_num [gBase])
    (by norm_num) (by norm_num [gBase])
    (by norm_num [List.pairwise_cons])
  have hlist : ([2000, 3000] : List ℚ) ++ [5000] = [2000, 3000, 5000] := rfl
  rw [hlist] at h
  rw [h]
  norm_num [uStaked, mkNewUser, BXC_ACCRUAL_PER_SECOND]

/-- C6: pausing records pauseStartTime and leaves eventEndTime alone;
resuming shifts eventEndTime forward by exactly the elapsed pause
duration and clears pauseStartTime; resuming with no pauseStartTime
recorded leaves eventEndTime unchanged and puts a warning in the response
message; and while paused, an accrual pass credits nothing to any user. -/
theorem pauseResumeShift (g : GlobalState) (t1 t2 : ℚ) (hp : g.isPaused = false) :
    ((toggleEventPause g t1).2.isPaused = true
      ∧ (toggleEventPause g t1).2.pauseStartTime = some t1
      ∧ (toggleEventPause g t1).2.eventEndTime = g.eventEndTime)
    ∧ ((toggleEventPause (toggleEventPause g t1).2 t2).2.eventEndTime
        = g.eventEndTime + (t2 - t1)
      ∧ (toggleEventPause (toggleEventPause g t1).2 t2).2.pauseStartTime = none
      ∧ (toggleEventPause (toggleEventPause g t1).2 t2).2.isPaused = false)
    ∧ (∀ gr now, gr.isPaused = true → gr.pauseStartTime = none →
        (toggleEventPause gr now).2.eventEndTime = gr.eventEndTime
        ∧ (toggleEventPause gr now).1.message
            = "Event resumed successfully. (Warning: No previous pause time to adjust end time.)")
    ∧ (∀ gp now u, gp.isPaused = true →
        (calculateAndSaveBXC gp now u).BXC_Balance = u.BXC_Balance
        ∧ (calculateAndSaveBXC gp now u).lastBXCAccrualTime = some now) := by
  refine ⟨?_, ?_, ?_, ?_⟩
  · simp [toggleEventPause, hp]
  · simp [toggleEventPause, hp]
  · intro gr now h1 h2
    simp [toggleEventPause, h1, h2]
  · intro gp now u h
    rw [calc_paused gp now u h]
    exact ⟨rfl, rfl⟩

/-- C6 witness: with eventEndTime at 1000000 ms, pausing 100 s before the
end (at 900000 ms) and resuming 30 s later (at 930000 ms) moves the end
to 1030000 ms, and a paused accrual pass leaves the balance unchanged. -/
theorem pauseResumeShift_witness :
    (toggleEventPause (toggleEventPause gLong 900000).2 930000).2.eventEndTime
      = 1030000
    ∧ (calculateAndSaveBXC gLongPaused 5 uStaked).BXC_Balance
        = uStaked.BXC_Balance := by
  have h := pauseResumeShift gLong 900000 930000 rfl
  refine ⟨?_, (h.2.2.2 gLongPaused 5 uStaked rfl).1⟩
  rw [h.2.1.1]
  norm_num [gLong, gBase]


/-! Lemmas about the reward draw clamp and the pool invariant. -/

/-- Closed form of the clamped AIN amount. -/
lemma clampDraw_calc (pool rewarded usd : ℚ) (w : Bool) :
    (clampDraw pool rewarded usd w).calculatedAinAmount
      = if 0 < pool ∧ pool < rewarded + (if w = true then usd / AIN_USD_PRICE else 0)
        then max 0 (pool - rewarded)
        else (if w = true then usd / AIN_USD_PRICE else 0) := by
  simp only [clampDraw]
  split_ifs <;> rfl

/-- Closed form of the post-clamp winner flag. -/
lemma clampDraw_winner (pool rewarded usd : ℚ) (w : Bool) :
    (clampDraw pool rewarded usd w).isLuckyWinner
      = if 0 < pool ∧ pool < rewarded + (if w = true then usd / AIN_USD_PRICE else 0)
        then (if max 0 (pool - rewarded) = 0 then false else w)
        else w := by
  simp only [clampDraw]
  split_ifs <;> rfl

/-- The clamped AIN amount never pushes the rewarded total past a
positive pool cap. -/
lemma clampDraw_add_le (pool rewarded usd : ℚ) (w : Bool)
    (hpool : 0 < pool) (hle : rewarded ≤ pool) :
    rewarded + (clampDraw pool rewarded usd w).calculatedAinAmount ≤ pool := by
  rw [clampDraw_calc]
  by_cases h : 0 < pool ∧ pool < rewarded + (if w = true then usd / AIN_USD_PRICE else 0)
  · rw [if_pos h, max_eq_right (by linarith)]
    linarith
  · rw [if_neg h]
    rcases not_and_or.mp h with h1 | h1
    · exact absurd hpool h1
    · exact not_lt.mp h1

/-- The clamped AIN amount is nonnegative whenever the drawn USD amount
is. -/
lemma clampDraw_nonneg (pool rewarded usd : ℚ) (w : Bool) (husd : 0 ≤ usd) :
    0 ≤ (clampDraw pool rewarded usd w).calculatedAinAmount := by
  rw [clampDraw_calc]
  by_cases h : 0 < pool ∧ pool < rewarded + (if w = true then usd / AIN_USD_PRICE else 0)
  · rw [if_pos h]
    exact le_max_left 0 _
  · rw [if_neg h]
    by_cases hw : w = true
    · rw [if_pos hw]
      exact div_nonneg husd (by norm_num [AIN_USD_PRICE])
    · rw [if_neg hw]

/-- One reveal call keeps the pool cap intact and, from a state whose
rewarded total respects a positive cap, keeps respecting it. -/
lemma revealReward_pool_step (store : UserStore) (g : GlobalState) (now : ℚ)
    (wa : String) (d : DrawOutcome)
    (hpool : 0 < g.maxAinRewardPool)
    (hle : g.totalAinRewarded ≤ g.maxAinRewardPool) :
    (revealReward store g now wa d).2.2.maxAinRewardPool = g.maxAinRewardPool
    ∧ (revealReward store g now wa d).2.2.totalAinRewarded ≤ g.maxAinRewardPool := by
  simp only [revealReward]
  split
  · exact ⟨rfl, hle⟩
  · split
    · exact ⟨rfl, hle⟩
    · split_ifs with h1 h2 h3 h4 h5
      · exact ⟨rfl, hle⟩
      · exact ⟨rfl, hle⟩
      · exact ⟨rfl, hle⟩
      · exact ⟨rfl, hle⟩
      · exact ⟨rfl, clampDraw_add_le _ _ _ _ hpool hle⟩
      · exact ⟨rfl, hle⟩

/-- The pool invariant carried through any sequence of reveal calls. -/
lemma revealSeq_pool_inv (steps : List (String × DrawOutcome × ℚ)) :
    ∀ (store : UserStore) (g : GlobalState),
      0 < g.maxAinRewardPool → g.totalAinRewarded ≤ g.maxAinRewardPool →
      (revealSeq steps store g).2.maxAinRewardPool = g.maxAinRewardPool
      ∧ (revealSeq steps store g).2.totalAinRewarded ≤ g.maxAinRewardPool := by
  induction steps with
  | nil =>
    intro store g _ hle
    exact ⟨rfl, hle⟩
  | cons s steps ih =>
    intro store g hpool hle
    have hstep := revealReward_pool_step store g s.2.2 s.1 s.2.1 hpool hle
    have hfold : revealSeq (s :: steps) store g
        = revealSeq steps (revealReward store g s.2.2 s.1 s.2.1).2.1
            (revealReward store g s.2.2 s.1 s.2.1).2.2 := rfl
    have ih2 := ih (revealReward store g s.2.2 s.1 s.2.1).2.1
      (revealReward store g s.2.2 s.1 s.2.1).2.2
      (by rw [hstep.1]; exact hpool) (by rw [hstep.1]; exact hstep.2)
    refine ⟨?_, ?_⟩
    · rw [hfold, ih2.1, hstep.1]
    · rw [hfold]
      have := ih2.2
      rw [hstep.1] at this
      exact this

/-- The threshold-gated draw keeps a nonnegative USD amount. -/
lemma gatedDraw_usd_nonneg (g : GlobalState) (d : DrawOutcome)
    (husd : 0 ≤ d.rewardAmountUSD) : 0 ≤ (gatedDraw g d).rewardAmountUSD := by
  unfold gatedDraw
  split_ifs
  · exact husd
  · norm_num

/-- C1 counterexample: with a configured reward pool cap of 0 (allowed by
the admin set-ain-reward-pool endpoint) the clamp at line 640 is disabled
entirely, so a single winning reveal pushes totalAinRewarded above the
cap even though the starting state satisfied the invariant. -/
theorem rewardPoolCap_counterexample :
    gPoolZero.totalAinRewarded ≤ gPoolZero.maxAinRewardPool
    ∧ (revealSeq [("0xc1", drawTen, 100)] [uRevealer] gPoolZero).2.maxAinRewardPool
        < (revealSeq [("0xc1", drawTen, 100)] [uRevealer] gPoolZero).2.totalAinRewarded := by
  have hj : jsToLower "0xc1" = "0xc1" := by decide
  have hne : ("0xc1" = "") = False := eq_false (by decide)
  constructor
  · norm_num [gPoolZero, gBase]
  · norm_num [revealSeq, revealReward, findUser, List.find?, hj, hne, uRevealer,
      mkNewUser, gPoolZero, gBase, drawTen, gatedDraw, clampDraw,
      revealedThisCycle, updateUser, AIN_USD_PRICE, LUCKY_WINNER_SLOT_THRESHOLD]

/-- C1 (amended): when the configured cap maxAinRewardPool is positive,
the rewarded total never exceeds it over any sequence of reveal draws in
one cycle; each draw whose payout would exceed the remaining pool is
clamped to exactly the remaining pool (not rejected); the clamped amount
is exactly what a fresh reveal adds to the rewarded total; and a clamp
down to 0 forces the isLuckyWinner flag to false.  (With a cap of 0 the
clamp is disabled and the invariant fails, see the counterexample.) -/
theorem rewardPoolCap_amended :
    (∀ (steps : List (String × DrawOutcome × ℚ)) (store : UserStore) (g : GlobalState),
      0 < g.maxAinRewardPool → g.totalAinRewarded ≤ g.maxAinRewardPool →
      (revealSeq steps store g).2.totalAinRewarded
        ≤ (revealSeq steps store g).2.maxAinRewardPool)
    ∧ (∀ (pool rewarded usd : ℚ) (w : Bool), 0 < pool → rewarded ≤ pool →
        pool < rewarded + (if w = true then usd / AIN_USD_PRICE else 0) →
        (clampDraw pool rewarded usd w).calculatedAinAmount = pool - rewarded)
    ∧ (∀ (pool rewarded usd : ℚ) (w : Bool), 0 < pool → pool ≤ rewarded →
        pool < rewarded + (if w = true then usd / AIN_USD_PRICE else 0) →
        (clampDraw pool rewarded usd w).isLuckyWinner = false)
    ∧ (∀ (store : UserStore) (g : GlobalState) (now : ℚ) (wa : String)
        (d : DrawOutcome) (u : User),
        wa ≠ "" → findUser store (jsToLower wa) = some u → u.slotsStaked ≠ 0 →
        g.isPaused = false → g.eventEndTime ≤ now →
        revealedThisCycle u g.eventStartTime = false → 0 ≤ d.rewardAmountUSD →
        (revealReward store g now wa d).2.2.totalAinRewarded
          = g.totalAinRewarded
            + (clampDraw g.maxAinRewardPool g.totalAinRewarded
                (gatedDraw g d).rewardAmountUSD
                (gatedDraw g d).isLuckyWinner).calculatedAinAmount) := by
  refine ⟨?_, ?_, ?_, ?_⟩
  · intro steps store g hpool hle
    have h := revealSeq_pool_inv steps store g hpool hle
    rw [h.1]
    exact h.2
  · intro pool rewarded usd w hpool hle hover
    rw [clampDraw_calc, if_pos ⟨hpool, hover⟩, max_eq_right (by linarith)]
  · intro pool rewarded usd w hpool hge hover
    rw [clampDraw_winner, if_pos ⟨hpool, hover⟩,
      if_pos (max_eq_left (by linarith))]
  · intro store g now wa d u hwa hfind hslots hp hend hrev husd
    simp only [revealReward]
    rw [if_neg hwa, hfind]
    simp only [hp, Bool.false_eq_true, if_false, hrev]
    rw [if_neg hslots, if_neg (not_lt.mpr hend)]
    by_cases hc : 0 < (clampDraw g.maxAinRewardPool g.totalAinRewarded
        (gatedDraw g d).rewardAmountUSD (gatedDraw g d).isLuckyWinner).calculatedAinAmount
    · rw [if_pos hc]
    · rw [if_neg hc]
      have h0 : (clampDraw g.maxAinRewardPool g.totalAinRewarded
          (gatedDraw g d).rewardAmountUSD
          (gatedDraw g d).isLuckyWinner).calculatedAinAmount = 0 :=
        le_antisymm (not_lt.mp hc)
          (clampDraw_nonneg _ _ _ _ (gatedDraw_usd_nonneg g d husd))
      rw [h0, add_zero]

/-- C1 amended witness: with a 100 AIN cap and 95 AIN already rewarded, a
10 USD winning draw (worth about 72.99 AIN) is clamped to the remaining
5 AIN, the sequence stays within the cap, a draw against an exhausted
pool loses its winner flag, and the fresh reveal adds exactly the
clamped amount. -/
theorem rewardPoolCap_amended_witness :
    ((revealSeq [("0xc1", drawTen, 100)] [uRevealer] gPoolAlmostFull).2.totalAinRewarded
      ≤ (revealSeq [("0xc1", drawTen, 100)] [uRevealer] gPoolAlmostFull).2.maxAinRewardPool)
    ∧ (clampDraw 100 95 10 true).calculatedAinAmount = 5
    ∧ (clampDraw 100 100 10 true).isLuckyWinner = false
    ∧ (revealReward [uRevealer] gPoolAlmostFull 100 "0xc1" drawTen).2.2.totalAinRewarded
        = gPoolAlmostFull.totalAinRewarded
          + (clampDraw gPoolAlmostFull.maxAinRewardPool gPoolAlmostFull.totalAinRewarded
              (gatedDraw gPoolAlmostFull drawTen).rewardAmountUSD
              (gatedDraw gPoolAlmostFull drawTen).isLuckyWinner).calculatedAinAmount := by
  obtain ⟨h1, h2, h3, h4⟩ := rewardPoolCap_amended
  refine ⟨h1 _ _ _ (by norm_num [gPoolAlmostFull, gBase])
      (by norm_num [gPoolAlmostFull, gBase]), ?_, ?_, ?_⟩
  · have := h2 100 95 10 true (by norm_num) (by norm_num)
      (by norm_num [AIN_USD_PRICE])
    rw [this]
    norm_num
  · exact h3 100 100 10 true (by norm_num) le_rfl (by norm_num [AIN_USD_PRICE])
  · exact h4 [uRevealer] gPoolAlmostFull 100 "0xc1" drawTen uRevealer
      (by decide)
      (by have hj : jsToLower "0xc1" = "0xc1" := by decide
          rw [hj]
          simp [findUser, List.find?, uRevealer, mkNewUser])
      (by decide) rfl (by norm_num [gPoolAlmostFull, gBase]) (by decide)
      (by norm_num [drawTen])

/-- Characterization of a successful collect: the AIN conversion of the
revealed USD amount is credited and the collected timestamp stamped;
nothing else changes. -/
lemma collect_success (g : GlobalState) (u : User) (now : ℚ)
    (hs : u.slotsStaked ≠ 0) (hp : g.isPaused = false)
    (hnow : g.eventEndTime ≤ now)
    (hrev : revealedThisCycle u g.eventStartTime = true)
    (hcol : collectedThisCycle u g.eventStartTime = false)
    (hd : 0 < u.lastRevealedUSDAmount) :
    collectReward g u now
      = (.collected (u.lastRevealedUSDAmount / AIN_USD_PRICE),
         { u with AIN_Balance := u.AIN_Balance + u.lastRevealedUSDAmount / AIN_USD_PRICE
                  collectedEventRewardTime := some now }, g) := by
  simp only [collectReward]
  rw [if_neg hs]
  simp only [hp, Bool.false_eq_true, if_false, hcol]
  rw [if_neg (not_lt.mpr hnow), if_neg (by rw [hrev]; simp)]
  rw [if_pos hd, if_neg (ne_of_gt (div_pos hd (by norm_num [AIN_USD_PRICE])))]

/-- Rejection paths of collect: not revealed this cycle. -/
lemma collect_mustReveal (g : GlobalState) (u : User) (now : ℚ)
    (hs : u.slotsStaked ≠ 0) (hp : g.isPaused = false)
    (hnow : g.eventEndTime ≤ now)
    (hrev : revealedThisCycle u g.eventStartTime = false) :
    collectReward g u now = (.mustRevealFirst, u, g) := by
  simp only [collectReward]
  rw [if_neg hs]
  simp only [hp, Bool.false_eq_true, if_false]
  rw [if_neg (not_lt.mpr hnow), if_pos hrev]

/-- Rejection paths of collect: already collected this cycle. -/
lemma collect_already (g : GlobalState) (u : User) (now : ℚ)
    (hs : u.slotsStaked ≠ 0) (hp : g.isPaused = false)
    (hnow : g.eventEndTime ≤ now)
    (hrev : revealedThisCycle u g.eventStartTime = true)
    (hcol : collectedThisCycle u g.eventStartTime = true) :
    collectReward g u now = (.alreadyCollected, u, g) := by
  simp only [collectReward]
  rw [if_neg hs]
  simp only [hp, Bool.false_eq_true, if_false]
  rw [if_neg (not_lt.mpr hnow), if_neg (by rw [hrev]; simp), if_pos (by rw [hcol])]

/-- C5: in one cycle, collect before any reveal is rejected with
mustRevealFirst; collect after a reveal that stored 0 is rejected with
nothingToCollect; after a reveal that stored a positive amount, collect
succeeds exactly once, crediting the AIN conversion, and any further
collect in the cycle is rejected with alreadyCollected. -/
theorem revealCollectOrdering (g : GlobalState) (u0 u1 u2 : User)
    (now now2 tr1 tr2 d : ℚ)
    (hp : g.isPaused = false) (hse : g.eventStartTime ≤ g.eventEndTime)
    (hnow : g.eventEndTime ≤ now) (hnow2 : g.eventEndTime ≤ now2)
    (hs0 : u0.slotsStaked ≠ 0)
    (hc0 : ∀ t, u0.claimedEventRewardTime = some t → t < g.eventStartTime)
    (hs1 : u1.slotsStaked ≠ 0)
    (hc1 : u1.claimedEventRewardTime = some tr1) (hc1g : g.eventStartTime ≤ tr1)
    (hcol1 : ∀ t, u1.collectedEventRewardTime = some t → t < g.eventStartTime)
    (hrev1 : u1.lastRevealedUSDAmount = 0)
    (hs2 : u2.slotsStaked ≠ 0)
    (hc2 : u2.claimedEventRewardTime = some tr2) (hc2g : g.eventStartTime ≤ tr2)
    (hcol2 : u2.collectedEventRewardTime = none)
    (hrev2 : u2.lastRevealedUSDAmount = d) (hd : 0 < d) :
    collectReward g u0 now = (.mustRevealFirst, u0, g)
    ∧ collectReward g u1 now = (.nothingToCollect, u1, g)
    ∧ (collectReward g u2 now).1 = .collected (d / AIN_USD_PRICE)
    ∧ (collectReward g u2 now).2.1.AIN_Balance = u2.AIN_Balance + d / AIN_USD_PRICE
    ∧ (collectReward g u2 now).2.1.collectedEventRewardTime = some now
    ∧ collectReward g ((collectReward g u2 now).2.1) now2
        = (.alreadyCollected, (collectReward g u2 now).2.1, g) := by
  have hrev0 : revealedThisCycle u0 g.eventStartTime = false := by
    unfold revealedThisCycle
    cases hcc : u0.claimedEventRewardTime with
    | none => rfl
    | some t => exact decide_eq_false (not_le.mpr (hc0 t hcc))
  have hrevT1 : revealedThisCycle u1 g.eventStartTime = true := by
    unfold revealedThisCycle
    rw [hc1]
    exact decide_eq_true hc1g
  have hcolF1 : collectedThisCycle u1 g.eventStartTime = false := by
    unfold collectedThisCycle
    cases hcc : u1.collectedEventRewardTime with
    | none => rfl
    | some t => exact decide_eq_false (not_le.mpr (hcol1 t hcc))
  have hrevT2 : revealedThisCycle u2 g.eventStartTime = true := by
    unfold revealedThisCycle
    rw [hc2]
    exact decide_eq_true hc2g
  have hcolF2 : collectedThisCycle u2 g.eventStartTime = false := by
    unfold collectedThisCycle
    rw [hcol2]
  have hd2 : 0 < u2.lastRevealedUSDAmount := by rw [hrev2]; exact hd
  have hmain := collect_success g u2 now hs2 hp hnow hrevT2 hcolF2 hd2
  refine ⟨collect_mustReveal g u0 now hs0 hp hnow hrev0, ?_, ?_, ?_, ?_, ?_⟩
  · simp only [collectReward]
    rw [if_neg hs1]
    simp only [hp, Bool.false_eq_true, if_false, hcolF1]
    rw [if_neg (not_lt.mpr hnow), if_neg (by rw [hrevT1]; simp)]
    rw [hrev1]
    norm_num
  · rw [hmain, hrev2]
  · rw [hmain, hrev2]
  · rw [hmain]
  · rw [hmain]
    exact collect_already g _ now2 hs2 hp hnow2 hrevT2
      (decide_eq_true (le_trans hse hnow))

/-- C5 witness: in the ended cycle gStakeCycle, a staked user with no
reveal is told to reveal first; one who revealed 0 has nothing to
collect; one who revealed 137 USD collects exactly 1000 AIN once, and a
repeat collect is rejected. -/
theorem revealCollectOrdering_witness :
    collectReward gStakeCycle uNoReveal 100 = (.mustRevealFirst, uNoReveal, gStakeCycle)
    ∧ collectReward gStakeCycle uRevealedZero 100
        = (.nothingToCollect, uRevealedZero, gStakeCycle)
    ∧ (collectReward gStakeCycle uRevealedPositive 100).1 = .collected 1000
    ∧ collectReward gStakeCycle
        ((collectReward gStakeCycle uRevealedPositive 100).2.1) 150
        = (.alreadyCollected,
           (collectReward gStakeCycle uRevealedPositive 100).2.1, gStakeCycle) := by
  have h := revealCollectOrdering gStakeCycle uNoReveal uRevealedZero uRevealedPositive
    100 150 100 100 137 rfl (by decide) (by decide) (by decide)
    (by decide) (by intro t ht; simp [uNoReveal, mkNewUser] at ht)
    (by decide) rfl (by decide)
    (by intro t ht; simp [uRevealedZero, uNoReveal, mkNewUser] at ht)
    rfl (by decide) rfl (by decide) rfl rfl (by norm_num)
  refine ⟨h.1, h.2.1, ?_, h.2.2.2.2.2⟩
  rw [h.2.2.1]
  norm_num [AIN_USD_PRICE]

/-- C10: a successful collect credits exactly
lastRevealedUSDAmount / AIN_USD_PRICE to the AIN balance and stamps
collectedEventRewardTime, and changes nothing else: every other user
field and the entire global record are unchanged. -/
theorem collectFrame (g : GlobalState) (u : User) (now : ℚ)
    (hs : u.slotsStaked ≠ 0) (hp : g.isPaused = false)
    (hnow : g.eventEndTime ≤ now)
    (hrev : revealedThisCycle u g.eventStartTime = true)
    (hcol : collectedThisCycle u g.eventStartTime = false)
    (hd : 0 < u.lastRevealedUSDAmount) :
    (collectReward g u now).1 = .collected (u.lastRevealedUSDAmount / AIN_USD_PRICE)
    ∧ (collectReward g u now).2.1.AIN_Balance
        = u.AIN_Balance + u.lastRevealedUSDAmount / AIN_USD_PRICE
    ∧ (collectReward g u now).2.1.collectedEventRewardTime = some now
    ∧ (collectReward g u now).2.1.BXC_Balance = u.BXC_Balance
    ∧ (collectReward g u now).2.1.slotsStaked = u.slotsStaked
    ∧ (collectReward g u now).2.1.stakedUSDValue = u.stakedUSDValue
    ∧ (collectReward g u now).2.1.stakeTransactions = u.stakeTransactions
    ∧ (collectReward g u now).2.1.claimedEventRewardTime = u.claimedEventRewardTime
    ∧ (collectReward g u now).2.1.lastRevealedUSDAmount = u.lastRevealedUSDAmount
    ∧ (collectReward g u now).2.1.lastReferralCopyBonusGiven
        = u.lastReferralCopyBonusGiven
    ∧ (collectReward g u now).2.1.referralCode = u.referralCode
    ∧ (collectReward g u now).2.1.referralCount = u.referralCount
    ∧ (collectReward g u now).2.1.createdAt = u.createdAt
    ∧ (collectReward g u now).2.1.lastBXCAccrualTime = u.lastBXCAccrualTime
    ∧ (collectReward g u now).2.1.walletAddress = u.walletAddress
    ∧ (collectReward g u now).2.2 = g := by
  rw [collect_success g u now hs hp hnow hrev hcol hd]
  exact ⟨rfl, rfl, rfl, rfl, rfl, rfl, rfl, rfl, rfl, rfl, rfl, rfl, rfl, rfl,
    rfl, rfl⟩

/-- C10 witness: uCollector (42 BXC, 7 AIN, revealed 137 USD) collects
1000 AIN, ending at 1007 AIN with the BXC balance and the global record
untouched. -/
theorem collectFrame_witness :
    (collectReward gStakeCycle uCollector 100).2.1.AIN_Balance = 1007
    ∧ (collectReward gStakeCycle uCollector 100).2.1.BXC_Balance = 42
    ∧ (collectReward gStakeCycle uCollector 100).2.2 = gStakeCycle := by
  have h := collectFrame gStakeCycle uCollector 100 (by decide) rfl (by decide)
    (by decide) (by decide) (by decide)
  refine ⟨?_, ?_, h.2.2.2.2.2.2.2.2.2.2.2.2.2.2.2⟩
  · rw [h.2.1]
    norm_num [uCollector, mkNewUser, AIN_USD_PRICE]
  · rw [h.2.2.2.1]
    decide

/-- find? over an append when the first part has no match. -/
lemma find?_append_of_none {α : Type} (p : α → Bool) (l1 l2 : List α)
    (h : l1.find? p = none) : (l1 ++ l2).find? p = l2.find? p := by
  induction l1 with
  | nil => rfl
  | cons a t ih =>
    rw [List.cons_append]
    cases hpa : p a with
    | true => simp [List.find?, hpa] at h
    | false =>
      simp only [List.find?, hpa] at h ⊢
      exact ih h

/-- C9: a GetStatus call for a wallet address with no record creates and
persists a fresh user record as a side effect of the read: zero balances,
no stake, empty transaction list, null reveal/collect/referral-bonus
timestamps, and a referral code equal to the last six characters of the
lowercased address. -/
theorem statusCreatesUser (store : UserStore) (g : GlobalState) (wa : String)
    (now : ℚ) (hwa : wa ≠ "")
    (habs : findUser store (jsToLower wa) = none) :
    (statusUser store g wa now).1 = some (mkNewUser (jsToLower wa) now)
    ∧ findUser (statusUser store g wa now).2 (jsToLower wa)
        = some (mkNewUser (jsToLower wa) now)
    ∧ (mkNewUser (jsToLower wa) now).slotsStaked = 0
    ∧ (mkNewUser (jsToLower wa) now).BXC_Balance = 0
    ∧ (mkNewUser (jsToLower wa) now).AIN_Balance = 0
    ∧ (mkNewUser (jsToLower wa) now).stakedUSDValue = 0
    ∧ (mkNewUser (jsToLower wa) now).claimedEventRewardTime = none
    ∧ (mkNewUser (jsToLower wa) now).collectedEventRewardTime = none
    ∧ (mkNewUser (jsToLower wa) now).lastReferralCopyBonusGiven = none
    ∧ (mkNewUser (jsToLower wa) now).stakeTransactions = []
    ∧ (mkNewUser (jsToLower wa) now).referralCode = sliceLast6 (jsToLower wa)
    ∧ (mkNewUser (jsToLower wa) now).createdAt = now := by
  have hstat : statusUser store g wa now
      = (some (mkNewUser (jsToLower wa) now),
         insertUser store (mkNewUser (jsToLower wa) now)) := by
    simp only [statusUser]
    rw [if_neg hwa, habs]
  refine ⟨by rw [hstat], ?_, rfl, rfl, rfl, rfl, rfl, rfl, rfl, rfl, rfl, rfl⟩
  rw [hstat]
  show findUser (insertUser store (mkNewUser (jsToLower wa) now)) (jsToLower wa)
    = some (mkNewUser (jsToLower wa) now)
  unfold findUser insertUser
  rw [find?_append_of_none _ store _ habs]
  simp [List.find?, mkNewUser]

/-- C9 witness: a status call for the unknown address 0xA9 creates the
record keyed 0xa9 with referral code 0xa9 and persists it. -/
theorem statusCreatesUser_witness :
    (statusUser [] gBase "0xA9" 5).1 = some (mkNewUser "0xa9" 5)
    ∧ findUser (statusUser [] gBase "0xA9" 5).2 "0xa9" = some (mkNewUser "0xa9" 5)
    ∧ (mkNewUser "0xa9" 5).referralCode = "0xa9"
    ∧ (mkNewUser "0xa9" 5).slotsStaked = 0 := by
  have hj : jsToLower "0xA9" = "0xa9" := by decide
  have h := statusCreatesUser [] gBase "0xA9" 5 (by decide) rfl
  rw [hj] at h
  exact ⟨h.1, h.2.1, by decide, h.2.2.1⟩

/-- C4 (amended): a second stake with an already-recorded hash is always
rejected (as already-staked or duplicate-hash), and a second stake with
any hash while the user has a stake transaction in the still-running,
unfilled cycle is rejected as already-staked; when no cycle reset is due,
these rejections mutate no user or global state.  (When the call finds
the previous cycle expired or full it first performs the cycle reset,
which does mutate state - see the counterexample.) -/
theorem stakeReplay_amended (store : UserStore) (g : GlobalState) (now : ℚ)
    (wa tx : String) (r : Option String) (u : User)
    (hwa : wa ≠ "") (htx : tx ≠ "")
    (hfind : findUser store (jsToLower wa) = some u)
    (hp : g.isPaused = false) (hmax : 0 < g.maxStakeSlots) :
    (hasRecordedHash (some u) tx = true →
      (stake store g now wa tx r).1 = StakeResult.alreadyStakedThisCycle
      ∨ (stake store g now wa tx r).1 = StakeResult.duplicateHash)
    ∧ (stakeNeedsReset g now = false →
        hasStakedInCycle (some u) g.eventStartTime = true →
        stake store g now wa tx r = (StakeResult.alreadyStakedThisCycle, store, g))
    ∧ (stakeNeedsReset g now = false → hasRecordedHash (some u) tx = true →
        ((stake store g now wa tx r).1 = StakeResult.alreadyStakedThisCycle
          ∨ (stake store g now wa tx r).1 = StakeResult.duplicateHash)
        ∧ (stake store g now wa tx r).2.1 = store
        ∧ (stake store g now wa tx r).2.2 = g) := by
  have hcm : 0 < currentMaxSlots g := by
    unfold currentMaxSlots
    rw [if_neg (by omega : ¬ g.maxStakeSlots = 0)]
    exact hmax
  refine ⟨?_, ?_, ?_⟩
  · intro hdup
    simp only [stake]
    rw [if_neg (not_or.mpr ⟨hwa, htx⟩), hfind]
    simp only [hp, Bool.false_eq_true, if_false]
    by_cases hnr : stakeNeedsReset g now = true
    · rw [if_pos hnr, if_pos hnr]
      rw [if_neg (by
        show ¬ currentMaxSlots g ≤ (resetGlobalOnStake g now).totalSlotsUsed
        exact not_le.mpr hcm)]
      by_cases hcyc :
          hasStakedInCycle (some u) (resetGlobalOnStake g now).eventStartTime = true
      · rw [if_pos hcyc]
        exact Or.inl rfl
      · rw [if_neg hcyc, if_pos hdup]
        exact Or.inr rfl
    · have hnrf : stakeNeedsReset g now = false := by
        revert hnr
        cases stakeNeedsReset g now <;> simp
      have hparts := hnrf
      simp only [stakeNeedsReset, Bool.or_eq_false_iff,
        decide_eq_false_iff_not] at hparts
      rw [if_neg hnr, if_neg hnr, if_neg hparts.1]
      by_cases hcyc : hasStakedInCycle (some u) g.eventStartTime = true
      · rw [if_pos hcyc]
        exact Or.inl rfl
      · rw [if_neg hcyc, if_pos hdup]
        exact Or.inr rfl
  · intro hnrf hcyc
    have hparts := hnrf
    simp only [stakeNeedsReset, Bool.or_eq_false_iff,
      decide_eq_false_iff_not] at hparts
    simp only [stake]
    rw [if_neg (not_or.mpr ⟨hwa, htx⟩), hfind]
    simp only [hp, Bool.false_eq_true, if_false, hnrf]
    rw [if_neg hparts.1, if_pos hcyc]
  · intro hnrf hdup
    have hparts := hnrf
    simp only [stakeNeedsReset, Bool.or_eq_false_iff,
      decide_eq_false_iff_not] at hparts
    simp only [stake]
    rw [if_neg (not_or.mpr ⟨hwa, htx⟩), hfind]
    simp only [hp, Bool.false_eq_true, if_false, hnrf]
    rw [if_neg hparts.1]
    by_cases hcyc : hasStakedInCycle (some u) g.eventStartTime = true
    · rw [if_pos hcyc]
      exact ⟨Or.inl rfl, rfl, rfl⟩
    · rw [if_neg hcyc, if_pos hdup]
      exact ⟨Or.inr rfl, rfl, rfl⟩

/-- C4 counterexample: a duplicate-hash stake arriving after the cycle
has expired is rejected, yet it mutates the global record, because the
call performs the cycle reset (lines 357-387) before the replay guards
run: eventStartTime moves from 0 to 200. -/
theorem stakeReplay_counterexample :
    (stake [uStakedWithHash] gStakeCycle 200 "0xa4" "h1" none).1
        = StakeResult.duplicateHash
    ∧ (stake [uStakedWithHash] gStakeCycle 200 "0xa4" "h1" none).2.2.eventStartTime
        = 200
    ∧ gStakeCycle.eventStartTime = 0
    ∧ (stake [uStakedWithHash] gStakeCycle 200 "0xa4" "h1" none).2.2
        ≠ gStakeCycle := by
  have h1 : (stake [uStakedWithHash] gStakeCycle 200 "0xa4" "h1" none).2.2.eventStartTime
      = 200 := by decide
  refine ⟨by decide, h1, by decide, fun hcon => ?_⟩
  rw [hcon] at h1
  exact absurd h1 (by decide)

/-- C4 amended witness: in the running cycle, a different-hash replay is
rejected as already-staked and a same-hash replay as a duplicate, both
leaving the users collection and the global record untouched. -/
theorem stakeReplay_amended_witness :
    stake [uStakedWithHash] gStakeCycle 50 "0xa4" "h2" none
      = (StakeResult.alreadyStakedThisCycle, [uStakedWithHash], gStakeCycle)
    ∧ ((stake [uStakedWithHash] gStakeCycle 50 "0xa4" "h1" none).1
          = StakeResult.alreadyStakedThisCycle
        ∨ (stake [uStakedWithHash] gStakeCycle 50 "0xa4" "h1" none).1
          = StakeResult.duplicateHash)
    ∧ (stake [uStakedWithHash] gStakeCycle 50 "0xa4" "h1" none).2.1
        = [uStakedWithHash]
    ∧ (stake [uStakedWithHash] gStakeCycle 50 "0xa4" "h1" none).2.2
        = gStakeCycle := by
  have hfind : findUser [uStakedWithHash] (jsToLower "0xa4") = some uStakedWithHash := by
    decide
  have h2 := stakeReplay_amended [uStakedWithHash] gStakeCycle 50 "0xa4" "h2" none
    uStakedWithHash (by decide) (by decide) hfind rfl (by decide)
  have h1 := stakeReplay_amended [uStakedWithHash] gStakeCycle 50 "0xa4" "h1" none
    uStakedWithHash (by decide) (by decide) hfind rfl (by decide)
  have h3 := h1.2.2 (by decide) (by decide)
  exact ⟨h2.2.1 (by decide) (by decide), h3.1, h3.2.1, h3.2.2⟩

/-- C7: contrary to the claim (and to the comments at the other two reset
sites, lines 119 and 1026), the stake-path cycle reset at lines 363-375
sets withdrawalsPaused to false instead of preserving it; the other admin
settings (maxStakeSlots, maxAinRewardPool, initialStakeAmountUSD,
stakingRecipientAddress) are preserved.  The concrete part shows a stake
into a full cycle with withdrawals paused coming out with withdrawals
unpaused. -/
theorem stakeResetClearsWithdrawalsPaused :
    (∀ (g : GlobalState) (now : ℚ),
      (resetGlobalOnStake g now).withdrawalsPaused = false
      ∧ (resetGlobalOnStake g now).maxStakeSlots = g.maxStakeSlots
      ∧ (resetGlobalOnStake g now).maxAinRewardPool = g.maxAinRewardPool
      ∧ (resetGlobalOnStake g now).initialStakeAmountUSD = g.initialStakeAmountUSD
      ∧ (resetGlobalOnStake g now).stakingRecipientAddress = g.stakingRecipientAddress)
    ∧ gFullWithdrawalsPaused.withdrawalsPaused = true
    ∧ (stake [] gFullWithdrawalsPaused 50 "0xb7" "h7" none).1 = StakeResult.success
    ∧ (stake [] gFullWithdrawalsPaused 50 "0xb7" "h7" none).2.2.withdrawalsPaused
        = false :=
  ⟨fun _ _ => ⟨rfl, rfl, rfl, rfl, rfl⟩, by decide, by decide, by decide⟩

/-- C8: the slot counter is not clamped at zero: a withdraw-stake against
a freshly reset cycle (slot counter 0, withdrawal at the exact cycle
start time, stake carried over from the previous cycle) succeeds and
drives totalSlotsUsed to -1, because the decrement at lines 555-558 is
unconditional. -/
theorem slotCounterGoesNegative :
    gFreshCycle.totalSlotsUsed = 0
    ∧ (withdrawStake [uStaleStaker] gFreshCycle 1000 "0xa8").1
        = WithdrawStakeResult.success
    ∧ (withdrawStake [uStaleStaker] gFreshCycle 1000 "0xa8").2.2.totalSlotsUsed
        = -1 := by
  have hj : jsToLower "0xa8" = "0xa8" := by decide
  have hne8 : ("0xa8" = "") = False := eq_false (by decide)
  refine ⟨by decide, ?_, ?_⟩
  · norm_num [withdrawStake, findUser, List.find?, hj, hne8, calculateAndSaveBXC,
      currentInitialStakeAmount, updateUser, uStaleStaker, mkNewUser,
      gFreshCycle, gBase, BXC_ACCRUAL_PER_SECOND, max_def]
  · norm_num [withdrawStake, findUser, List.find?, hj, hne8, calculateAndSaveBXC,
      currentInitialStakeAmount, updateUser, uStaleStaker, mkNewUser,
      gFreshCycle, gBase, BXC_ACCRUAL_PER_SECOND, max_def]
